import Mathlib

/-
Verification of the offline shell cache service worker
(src/freqshift_pwa/static/sw.js) of the binaural-health repository.

The service worker is embedded shallowly:
  - a request is its method, origin and URL path (the request key of the
    cache store is the whole request, matching the data model of the spec);
  - a response is a payload tag plus an HTTP status; response.clone() is
    the identity on this abstraction;
  - the ambient cache storage (the `caches` global) is an association list
    from generation name to store; a store is an association list from
    request key to response, most recent entry first (cache.put overwrites
    observationally because lookups take the first hit);
  - the network is a pure oracle: for the fetch handler a function from the
    running count of network calls to an optional response (none = network
    failure), so that distinguishable successive payloads are expressible;
    for the install handler a function from URL to an optional response;
  - event.respondWith / event.waitUntil become the returned value of each
    handler; a rejected promise becomes `none` or a `false` success flag.
-/

namespace FreqshiftSW

/-- A request as seen by the fetch handler: method, origin and URL path. -/
structure Request where
  method : String
  origin : String
  pathname : String
deriving DecidableEq, Repr

/-- A response: a payload tag (to tell network generations apart) and an
HTTP status code. -/
structure Response where
  payload : Nat
  status : Nat
deriving DecidableEq, Repr

/-- `const CACHE_NAME = "freqshift-pwa-v1"` (sw.js line 6). -/
def CACHE_NAME : String := "freqshift-pwa-v1"

/-- `const APP_SHELL = [...]` (sw.js lines 7-12). -/
def APP_SHELL : List String :=
  ["/", "/manifest.webmanifest", "/static/icons/icon-192.png", "/static/icons/icon-512.png"]

/-- One cache store generation: request key to stored response. -/
abbrev Store := List (Request × Response)

/-- cache.match inside a single store: first entry with the exact key. -/
def lookupStore : Store → Request → Option Response
  | [], _ => none
  | (k, v) :: rest, r => if k = r then some v else lookupStore rest r

/-- cache.put: store a response under the request key (newest entry first,
so lookups see the new value). -/
def putStore (st : Store) (r : Request) (v : Response) : Store :=
  (r, v) :: st

/-- The ambient cache storage: generation name to store. -/
abbrev CacheStorage := List (String × Store)

/-- caches.keys(): the names of all existing generations. -/
def cachesKeys (cs : CacheStorage) : List String :=
  cs.map Prod.fst

/-- The store held under a generation name, if that generation exists. -/
def getStore (cs : CacheStorage) (name : String) : Option Store :=
  (cs.find? (fun p => p.1 == name)).map Prod.snd

/-- caches.open(name): ensure a (possibly empty) store exists under the
name. -/
def cachesOpen (cs : CacheStorage) (name : String) : CacheStorage :=
  if cs.any (fun p => p.1 == name) then cs else cs ++ [(name, [])]

/-- cache.put performed on the store named `name` inside the storage. -/
def cachePutIn : CacheStorage → String → Request → Response → CacheStorage
  | [], _, _, _ => []
  | (n, st) :: rest, name, r, v =>
    if n == name then (n, putStore st r v) :: rest
    else (n, st) :: cachePutIn rest name r v

/-- caches.delete(name): remove the generation with that name. -/
def cachesDelete (cs : CacheStorage) (name : String) : CacheStorage :=
  cs.filter (fun p => !(p.1 == name))

/-- caches.match(request): search every existing store, in order, for the
exact request key (sw.js line 34 uses the storage-wide match, not the
match of one opened store). -/
def cachesMatch : CacheStorage → Request → Option Response
  | [], _ => none
  | (_, st) :: rest, r =>
    match lookupStore st r with
    | some v => some v
    | none => cachesMatch rest r

/-- State threaded through fetch handling: the cache storage plus the
number of network fetches performed so far (so that a counting network
oracle can report which call produced which payload). -/
structure SWState where
  cacheStorage : CacheStorage
  netCalls : Nat
deriving DecidableEq, Repr

/-- JavaScript String.prototype.startsWith: the second string is a prefix
of the character sequence of the first. -/
def startsWithStr (s p : String) : Bool :=
  p.data.isPrefixOf s.data

/-- The dynamic-result test of sw.js line 27:
`url.pathname.startsWith("/result/") || url.pathname.startsWith("/download/")`. -/
def isDynamicPath (p : String) : Bool :=
  startsWithStr p "/result/" || startsWithStr p "/download/"

/-- cache.addAll, fetch phase: fetch every URL of the list; all-or-nothing,
any failed fetch rejects the whole operation before anything is stored. -/
def addAllFetch (netG : String → Option Response) : List String → Option (List (String × Response))
  | [] => some []
  | u :: rest =>
    match netG u, addAllFetch netG rest with
    | some r, some rs => some ((u, r) :: rs)
    | _, _ => none

/-- The request an app-shell URL is fetched and keyed under: a GET from the
worker origin. -/
def shellRequest (selfOrigin : String) (u : String) : Request :=
  ⟨"GET", selfOrigin, u⟩

/-- The install handler (sw.js lines 14-16):
`caches.open(CACHE_NAME).then((cache) => cache.addAll(APP_SHELL))`.
Returns the success flag surfaced through event.waitUntil and the
resulting cache storage. -/
def installSW (netG : String → Option Response) (selfOrigin : String)
    (cs : CacheStorage) : Bool × CacheStorage :=
  let cs1 := cachesOpen cs CACHE_NAME
  match addAllFetch netG APP_SHELL with
  | none => (false, cs1)
  | some pairs =>
    (true, pairs.foldl (fun acc p => cachePutIn acc CACHE_NAME (shellRequest selfOrigin p.1) p.2) cs1)

/-- The activate handler (sw.js lines 18-22):
`caches.keys().then((keys) => Promise.all(keys.filter((k) => k !== CACHE_NAME).map((k) => caches.delete(k))))`. -/
def activateSW (cs : CacheStorage) : CacheStorage :=
  ((cachesKeys cs).filter (fun k => !(k == CACHE_NAME))).foldl cachesDelete cs

/-- The fetch handler (sw.js lines 24-45). `net` is the network oracle
indexed by the running call count, `putOk` tells whether the fire-and-forget
`cache.put` of line 40 succeeds (its promise is not awaited, so its failure
never reaches the response), `selfOrigin` is self.location.origin. Returns
the response delivered through event.respondWith (none = failed load) and
the successor state. response.clone() is the identity here. -/
def handleFetch (net : Nat → Option Response) (putOk : Bool) (selfOrigin : String)
    (s : SWState) (req : Request) : Option Response × SWState :=
  if isDynamicPath req.pathname then
    (net s.netCalls, { s with netCalls := s.netCalls + 1 })
  else
    match cachesMatch s.cacheStorage req with
    | some cached => (some cached, s)
    | none =>
      match net s.netCalls with
      | none => (none, { s with netCalls := s.netCalls + 1 })
      | some response =>
        if req.method == "GET" && req.origin == selfOrigin then
          let copy := response
          let stored := if putOk then cachePutIn (cachesOpen s.cacheStorage CACHE_NAME) CACHE_NAME req copy
                        else s.cacheStorage
          (some response, { cacheStorage := stored, netCalls := s.netCalls + 1 })
        else
          (some response, { s with netCalls := s.netCalls + 1 })

/-! Helper lemmas about the store and storage operations. -/

theorem lookupStore_putStore_self (st : Store) (r : Request) (v : Response) :
    lookupStore (putStore st r v) r = some v := by
  simp [putStore, lookupStore]

theorem cachesMatch_cons_none_iff (n : String) (st : Store) (cs : CacheStorage) (r : Request) :
    cachesMatch ((n, st) :: cs) r = none ↔
      lookupStore st r = none ∧ cachesMatch cs r = none := by
  cases h : lookupStore st r <;> simp [cachesMatch, h]

theorem cachesMatch_open_put (cs : CacheStorage) (N : String) (r : Request) (v : Response)
    (hm : cachesMatch cs r = none) :
    cachesMatch (cachePutIn (cachesOpen cs N) N r v) r = some v := by
  unfold cachesOpen
  by_cases hany : cs.any (fun p => p.1 == N) = true
  · simp only [hany, if_true]
    induction cs with
    | nil => simp [List.any_nil] at hany
    | cons hd tl ih =>
      obtain ⟨n, st⟩ := hd
      rw [cachesMatch_cons_none_iff] at hm
      by_cases hn : (n == N) = true
      · simp [cachePutIn, hn, cachesMatch, lookupStore_putStore_self]
      · simp only [Bool.not_eq_true] at hn
        simp only [List.any_cons, hn, Bool.false_or] at hany
        simp [cachePutIn, hn, cachesMatch, hm.1, ih hm.2 hany]
  · simp only [Bool.not_eq_true] at hany
    simp only [hany, Bool.false_eq_true, if_false]
    induction cs with
    | nil => simp [cachePutIn, cachesMatch, lookupStore_putStore_self]
    | cons hd tl ih =>
      obtain ⟨n, st⟩ := hd
      rw [cachesMatch_cons_none_iff] at hm
      simp only [List.any_cons, Bool.or_eq_false_iff] at hany
      simp [cachePutIn, hany.1, cachesMatch, hm.1, ih hm.2 hany.2]

theorem cachesMatch_exists_mem (cs : CacheStorage) (r : Request) (v : Response)
    (h : cachesMatch cs r = some v) :
    ∃ n st, (n, st) ∈ cs ∧ lookupStore st r = some v := by
  induction cs with
  | nil => simp [cachesMatch] at h
  | cons hd tl ih =>
    obtain ⟨n, st⟩ := hd
    cases hl : lookupStore st r with
    | some w =>
      simp only [cachesMatch, hl] at h
      exact ⟨n, st, List.mem_cons_self _ _, by rw [hl, h]⟩
    | none =>
      simp only [cachesMatch, hl] at h
      obtain ⟨n2, st2, hmem, hlk⟩ := ih h
      exact ⟨n2, st2, List.mem_cons_of_mem _ hmem, hlk⟩

theorem contains_iff_memStr (K : List String) (x : String) :
    K.contains x = true ↔ x ∈ K := by
  simp

theorem foldl_cachesDelete (K : List String) (cs : CacheStorage) :
    K.foldl cachesDelete cs = cs.filter (fun p => !(K.contains p.1)) := by
  induction K generalizing cs with
  | nil => simp
  | cons k K ih =>
    rw [List.foldl_cons, ih, cachesDelete, List.filter_filter]
    apply List.filter_congr
    intro p _
    rw [List.contains_cons, Bool.not_or, Bool.and_comm]

theorem activateSW_filter (cs : CacheStorage) :
    activateSW cs = cs.filter (fun p => p.1 == CACHE_NAME) := by
  rw [activateSW, foldl_cachesDelete]
  apply List.filter_congr
  intro p hp
  by_cases h : p.1 = CACHE_NAME
  · have hnm : p.1 ∉ (cachesKeys cs).filter (fun k => !(k == CACHE_NAME)) := by
      intro hcon
      rw [List.mem_filter] at hcon
      simp [h] at hcon
    have hc : ((cachesKeys cs).filter (fun k => !(k == CACHE_NAME))).contains p.1 = false := by
      cases hcon : ((cachesKeys cs).filter (fun k => !(k == CACHE_NAME))).contains p.1
      · rfl
      · exact absurd ((contains_iff_memStr _ _).1 hcon) hnm
    rw [hc]
    simp [h]
  · have hmem : p.1 ∈ (cachesKeys cs).filter (fun k => !(k == CACHE_NAME)) :=
      List.mem_filter.2 ⟨List.mem_map_of_mem Prod.fst hp, by simp [h]⟩
    rw [(contains_iff_memStr _ _).2 hmem]
    simp [h]

theorem getStore_to_filter (cs : CacheStorage) (st : Store)
    (hnd : (cs.map Prod.fst).Nodup) (h : getStore cs CACHE_NAME = some st) :
    cs.filter (fun p => p.1 == CACHE_NAME) = [(CACHE_NAME, st)] := by
  induction cs with
  | nil => simp [getStore] at h
  | cons hd tl ih =>
    obtain ⟨n, st0⟩ := hd
    simp only [List.map_cons, List.nodup_cons] at hnd
    by_cases hn : n = CACHE_NAME
    · subst hn
      have hst : st0 = st := by
        simpa [getStore, List.find?_cons] using h
      subst hst
      have htl : tl.filter (fun p => p.1 == CACHE_NAME) = [] := by
        rw [List.filter_eq_nil_iff]
        intro p hp
        simp only [beq_iff_eq]
        exact fun he => hnd.1 (he ▸ List.mem_map_of_mem Prod.fst hp)
      simp [List.filter_cons, htl]
    · have hb : (n == CACHE_NAME) = false := by simp [hn]
      simp only [getStore, List.find?_cons, hb] at h
      simp only [List.filter_cons, hb, Bool.false_eq_true, if_false]
      exact ih hnd.2 h

theorem getStore_cachePutIn (cs : CacheStorage) (N : String) (st : Store)
    (r : Request) (v : Response) (h : getStore cs N = some st) :
    getStore (cachePutIn cs N r v) N = some (putStore st r v) := by
  induction cs with
  | nil => simp [getStore] at h
  | cons hd tl ih =>
    obtain ⟨n, st0⟩ := hd
    by_cases hn : (n == N) = true
    · have hst : st0 = st := by
        simpa [getStore, List.find?_cons, hn] using h
      simp [cachePutIn, hn, getStore, List.find?_cons, hst]
    · simp only [Bool.not_eq_true] at hn
      simp only [getStore, List.find?_cons, hn] at h
      simp only [cachePutIn, hn, Bool.false_eq_true, if_false]
      simp only [getStore, List.find?_cons, hn]
      exact ih h

theorem getStore_cachesOpen (cs : CacheStorage) (N : String) :
    ∃ st, getStore (cachesOpen cs N) N = some st := by
  unfold cachesOpen
  by_cases hany : cs.any (fun p => p.1 == N) = true
  · simp only [hany, if_true]
    induction cs with
    | nil => simp [List.any_nil] at hany
    | cons hd tl ih =>
      obtain ⟨n, st0⟩ := hd
      by_cases hn : (n == N) = true
      · exact ⟨st0, by simp [getStore, List.find?_cons, hn]⟩
      · simp only [Bool.not_eq_true] at hn
        simp only [List.any_cons, hn, Bool.false_or] at hany
        obtain ⟨st, hst⟩ := ih hany
        exact ⟨st, by simpa [getStore, List.find?_cons, hn] using hst⟩
  · simp only [Bool.not_eq_true] at hany
    simp only [hany, Bool.false_eq_true, if_false]
    induction cs with
    | nil => exact ⟨[], by simp [getStore]⟩
    | cons hd tl ih =>
      obtain ⟨n, st0⟩ := hd
      simp only [List.any_cons, Bool.or_eq_false_iff] at hany
      obtain ⟨st, hst⟩ := ih hany.2
      exact ⟨st, by simpa [getStore, List.find?_cons, hany.1] using hst⟩

theorem lookupStore_putStore_ne (st : Store) (k q : Request) (v : Response)
    (h : k ≠ q) : lookupStore (putStore st k v) q = lookupStore st q := by
  simp [putStore, lookupStore, h]

theorem addAllFetch_none (netG : String → Option Response) (u : String) :
    ∀ l : List String, u ∈ l → netG u = none → addAllFetch netG l = none := by
  intro l
  induction l with
  | nil => intro h; simp at h
  | cons v rest ih =>
    intro hu hf
    rcases List.mem_cons.1 hu with he | htl
    · subst he
      simp [addAllFetch, hf]
    · have h2 := ih htl hf
      cases hv : netG v <;> simp [addAllFetch, hv, h2]

/-! Claim theorems. -/

/-- C1: a request whose URL path starts with a reserved dynamic prefix
("/result/" or "/download/") never reads or writes any cache store: the
handler returns exactly the live network response, leaves every store
untouched, and a second request to the same URL returns the next network
payload, never a stale cached one. -/
theorem fetch_dynamic_path_bypasses_cache (net : Nat → Option Response) (putOk : Bool)
    (so : String) (s : SWState) (req : Request)
    (h : isDynamicPath req.pathname = true) :
    handleFetch net putOk so s req = (net s.netCalls, ⟨s.cacheStorage, s.netCalls + 1⟩) ∧
    (handleFetch net putOk so (handleFetch net putOk so s req).2 req).1 =
      net (s.netCalls + 1) := by
  constructor
  · simp [handleFetch, h]
  · simp [handleFetch, h]

theorem fetch_dynamic_path_bypasses_cache_witness :
    isDynamicPath "/result/abc123" = true ∧
    handleFetch (fun n => some ⟨n, 200⟩) true "https://o" ⟨[], 0⟩
        ⟨"GET", "https://o", "/result/abc123"⟩ = (some ⟨0, 200⟩, ⟨[], 1⟩) ∧
    (handleFetch (fun n => some ⟨n, 200⟩) true "https://o"
        (handleFetch (fun n => some ⟨n, 200⟩) true "https://o" ⟨[], 0⟩
          ⟨"GET", "https://o", "/result/abc123"⟩).2
        ⟨"GET", "https://o", "/result/abc123"⟩).1 = some ⟨1, 200⟩ := by
  have h := fetch_dynamic_path_bypasses_cache (fun n => some ⟨n, 200⟩) true "https://o"
    ⟨[], 0⟩ ⟨"GET", "https://o", "/result/abc123"⟩ (by decide)
  exact ⟨by decide, h.1, h.2⟩

/-- C2: a same-origin GET to a non-reserved path with no existing entry is
fetched from the network exactly once, the response is stored under the
request key, and a second identical request is answered from the store with
no further network fetch and no state change. -/
theorem fetch_miss_caches_then_hits (net : Nat → Option Response) (so : String)
    (s : SWState) (req : Request) (resp : Response)
    (hres : isDynamicPath req.pathname = false)
    (hm : req.method = "GET") (ho : req.origin = so)
    (hmiss : cachesMatch s.cacheStorage req = none)
    (hnet : net s.netCalls = some resp) :
    (handleFetch net true so s req).1 = some resp ∧
    (handleFetch net true so s req).2.netCalls = s.netCalls + 1 ∧
    cachesMatch (handleFetch net true so s req).2.cacheStorage req = some resp ∧
    handleFetch net true so (handleFetch net true so s req).2 req =
      (some resp, (handleFetch net true so s req).2) := by
  have hcond : (req.method == "GET" && req.origin == so) = true := by
    simp [hm, ho]
  have hout : handleFetch net true so s req =
      (some resp, ⟨cachePutIn (cachesOpen s.cacheStorage CACHE_NAME) CACHE_NAME req resp,
        s.netCalls + 1⟩) := by
    simp [handleFetch, hres, hmiss, hnet, hcond]
  have hstored := cachesMatch_open_put s.cacheStorage CACHE_NAME req resp hmiss
  rw [hout]
  exact ⟨rfl, rfl, hstored, by simp [handleFetch, hres, hstored]⟩

theorem fetch_miss_caches_then_hits_witness :
    cachesMatch ([] : CacheStorage) ⟨"GET", "https://o", "/app.js"⟩ = none ∧
    (handleFetch (fun n => some ⟨n + 10, 200⟩) true "https://o" ⟨[], 0⟩
        ⟨"GET", "https://o", "/app.js"⟩).1 = some ⟨10, 200⟩ ∧
    (handleFetch (fun n => some ⟨n + 10, 200⟩) true "https://o" ⟨[], 0⟩
        ⟨"GET", "https://o", "/app.js"⟩).2.netCalls = 1 ∧
    cachesMatch (handleFetch (fun n => some ⟨n + 10, 200⟩) true "https://o" ⟨[], 0⟩
        ⟨"GET", "https://o", "/app.js"⟩).2.cacheStorage ⟨"GET", "https://o", "/app.js"⟩ =
      some ⟨10, 200⟩ ∧
    handleFetch (fun n => some ⟨n + 10, 200⟩) true "https://o"
        (handleFetch (fun n => some ⟨n + 10, 200⟩) true "https://o" ⟨[], 0⟩
          ⟨"GET", "https://o", "/app.js"⟩).2 ⟨"GET", "https://o", "/app.js"⟩ =
      (some ⟨10, 200⟩,
        (handleFetch (fun n => some ⟨n + 10, 200⟩) true "https://o" ⟨[], 0⟩
          ⟨"GET", "https://o", "/app.js"⟩).2) := by
  have h := fetch_miss_caches_then_hits (fun n => some ⟨n + 10, 200⟩) "https://o"
    ⟨[], 0⟩ ⟨"GET", "https://o", "/app.js"⟩ ⟨10, 200⟩ (by decide) rfl rfl (by decide) rfl
  exact ⟨by decide, h.1, h.2.1, h.2.2.1, h.2.2.2⟩

/-- C7: on a cache miss for a non-reserved path, a cross-origin or non-GET
response is delivered to the caller but nothing is stored: the whole cache
storage is returned unchanged. -/
theorem fetch_cross_origin_or_non_get_not_stored (net : Nat → Option Response)
    (putOk : Bool) (so : String) (s : SWState) (req : Request) (resp : Response)
    (hres : isDynamicPath req.pathname = false)
    (hng : (req.method == "GET" && req.origin == so) = false)
    (hmiss : cachesMatch s.cacheStorage req = none)
    (hnet : net s.netCalls = some resp) :
    handleFetch net putOk so s req = (some resp, ⟨s.cacheStorage, s.netCalls + 1⟩) := by
  simp [handleFetch, hres, hmiss, hnet, hng]

theorem fetch_cross_origin_or_non_get_not_stored_witness :
    isDynamicPath "/lib.js" = false ∧
    handleFetch (fun n => some ⟨n + 7, 200⟩) true "https://o" ⟨[], 0⟩
        ⟨"GET", "https://cdn.example", "/lib.js"⟩ =
      (some ⟨7, 200⟩, ⟨[], 1⟩) := by
  have h := fetch_cross_origin_or_non_get_not_stored (fun n => some ⟨n + 7, 200⟩) true
    "https://o" ⟨[], 0⟩ ⟨"GET", "https://cdn.example", "/lib.js"⟩ ⟨7, 200⟩
    (by decide) (by decide) (by decide) rfl
  exact ⟨by decide, h⟩

/-- C8: the opportunistic cache.put is fire-and-forget, so its failure is
non-fatal: on a same-origin GET cache miss the delivered response is the
live network response whether the store step succeeds or fails, and a
failed store step leaves the storage unchanged. -/
theorem fetch_put_failure_nonfatal (net : Nat → Option Response) (so : String)
    (s : SWState) (req : Request) (resp : Response)
    (hres : isDynamicPath req.pathname = false)
    (hm : req.method = "GET") (ho : req.origin = so)
    (hmiss : cachesMatch s.cacheStorage req = none)
    (hnet : net s.netCalls = some resp) :
    (handleFetch net true so s req).1 = some resp ∧
    (handleFetch net false so s req).1 = some resp ∧
    (handleFetch net false so s req).2.cacheStorage = s.cacheStorage := by
  have hcond : (req.method == "GET" && req.origin == so) = true := by
    simp [hm, ho]
  refine ⟨?_, ?_, ?_⟩ <;> simp [handleFetch, hres, hmiss, hnet, hcond]

theorem fetch_put_failure_nonfatal_witness :
    cachesMatch ([] : CacheStorage) ⟨"GET", "https://o", "/style.css"⟩ = none ∧
    (handleFetch (fun n => some ⟨n + 3, 200⟩) true "https://o" ⟨[], 0⟩
        ⟨"GET", "https://o", "/style.css"⟩).1 = some ⟨3, 200⟩ ∧
    (handleFetch (fun n => some ⟨n + 3, 200⟩) false "https://o" ⟨[], 0⟩
        ⟨"GET", "https://o", "/style.css"⟩).1 = some ⟨3, 200⟩ ∧
    (handleFetch (fun n => some ⟨n + 3, 200⟩) false "https://o" ⟨[], 0⟩
        ⟨"GET", "https://o", "/style.css"⟩).2.cacheStorage = [] := by
  have h := fetch_put_failure_nonfatal (fun n => some ⟨n + 3, 200⟩) "https://o"
    ⟨[], 0⟩ ⟨"GET", "https://o", "/style.css"⟩ ⟨3, 200⟩ (by decide) rfl rfl (by decide) rfl
  exact ⟨by decide, h.1, h.2.1, h.2.2⟩

/-- C10: the opportunistic-caching condition tests only method and origin,
never the response status, so a same-origin GET whose live fetch yields an
error response (status 400 or above) has that error response stored under
the request key, and the identical second request is served the stored
error response with no further network fetch. -/
theorem fetch_error_response_cached (net : Nat → Option Response) (so : String)
    (s : SWState) (req : Request) (resp : Response)
    (hres : isDynamicPath req.pathname = false)
    (hm : req.method = "GET") (ho : req.origin = so)
    (hmiss : cachesMatch s.cacheStorage req = none)
    (hnet : net s.netCalls = some resp)
    (_herr : 400 ≤ resp.status) :
    (handleFetch net true so s req).1 = some resp ∧
    cachesMatch (handleFetch net true so s req).2.cacheStorage req = some resp ∧
    handleFetch net true so (handleFetch net true so s req).2 req =
      (some resp, (handleFetch net true so s req).2) := by
  have hcond : (req.method == "GET" && req.origin == so) = true := by
    simp [hm, ho]
  have hout : handleFetch net true so s req =
      (some resp, ⟨cachePutIn (cachesOpen s.cacheStorage CACHE_NAME) CACHE_NAME req resp,
        s.netCalls + 1⟩) := by
    simp [handleFetch, hres, hmiss, hnet, hcond]
  have hstored := cachesMatch_open_put s.cacheStorage CACHE_NAME req resp hmiss
  rw [hout]
  exact ⟨rfl, hstored, by simp [handleFetch, hres, hstored]⟩

theorem fetch_error_response_cached_witness :
    cachesMatch ([] : CacheStorage) ⟨"GET", "https://o", "/missing.png"⟩ = none ∧
    (400 : Nat) ≤ 404 ∧
    (handleFetch (fun n => some ⟨n + 50, 404⟩) true "https://o" ⟨[], 0⟩
        ⟨"GET", "https://o", "/missing.png"⟩).1 = some ⟨50, 404⟩ ∧
    cachesMatch (handleFetch (fun n => some ⟨n + 50, 404⟩) true "https://o" ⟨[], 0⟩
        ⟨"GET", "https://o", "/missing.png"⟩).2.cacheStorage
        ⟨"GET", "https://o", "/missing.png"⟩ = some ⟨50, 404⟩ ∧
    handleFetch (fun n => some ⟨n + 50, 404⟩) true "https://o"
        (handleFetch (fun n => some ⟨n + 50, 404⟩) true "https://o" ⟨[], 0⟩
          ⟨"GET", "https://o", "/missing.png"⟩).2 ⟨"GET", "https://o", "/missing.png"⟩ =
      (some ⟨50, 404⟩,
        (handleFetch (fun n => some ⟨n + 50, 404⟩) true "https://o" ⟨[], 0⟩
          ⟨"GET", "https://o", "/missing.png"⟩).2) := by
  have h := fetch_error_response_cached (fun n => some ⟨n + 50, 404⟩) "https://o"
    ⟨[], 0⟩ ⟨"GET", "https://o", "/missing.png"⟩ ⟨50, 404⟩ (by decide) rfl rfl
    (by decide) rfl (by decide)
  exact ⟨by decide, by decide, h.1, h.2.1, h.2.2⟩

/-- C3: after the activate handler runs on a storage whose generation names
are distinct and that holds a store under the current generation
identifier, exactly that one generation remains, with its store intact. -/
theorem activate_retains_only_current (cs : CacheStorage) (st : Store)
    (hnd : (cs.map Prod.fst).Nodup) (h : getStore cs CACHE_NAME = some st) :
    activateSW cs = [(CACHE_NAME, st)] := by
  rw [activateSW_filter]
  exact getStore_to_filter cs st hnd h

theorem activate_retains_only_current_witness :
    getStore [("freqshift-pwa-v0", []),
      (CACHE_NAME, [(⟨"GET", "https://o", "/"⟩, ⟨3, 200⟩)])] CACHE_NAME =
      some [(⟨"GET", "https://o", "/"⟩, ⟨3, 200⟩)] ∧
    activateSW [("freqshift-pwa-v0", []),
      (CACHE_NAME, [(⟨"GET", "https://o", "/"⟩, ⟨3, 200⟩)])] =
      [(CACHE_NAME, [(⟨"GET", "https://o", "/"⟩, ⟨3, 200⟩)])] := by
  have h := activate_retains_only_current
    [("freqshift-pwa-v0", []), (CACHE_NAME, [(⟨"GET", "https://o", "/"⟩, ⟨3, 200⟩)])]
    [(⟨"GET", "https://o", "/"⟩, ⟨3, 200⟩)] (by decide) (by decide)
  exact ⟨by decide, h⟩

/-- C9: the activate handler is idempotent: running it twice yields the
same storage as running it once, and running it on a storage with zero
stale generations leaves the storage unchanged. -/
theorem activate_idempotent (cs : CacheStorage) :
    activateSW (activateSW cs) = activateSW cs ∧
    ((∀ p ∈ cs, p.1 = CACHE_NAME) → activateSW cs = cs) := by
  constructor
  · rw [activateSW_filter cs, activateSW_filter, List.filter_filter]
    apply List.filter_congr
    intro p _
    exact Bool.and_self _
  · intro h
    rw [activateSW_filter, List.filter_eq_self]
    intro p hp
    simp [h p hp]

theorem activate_idempotent_witness :
    activateSW (activateSW [(CACHE_NAME, [])]) = activateSW [(CACHE_NAME, [])] ∧
    activateSW [(CACHE_NAME, [])] = [(CACHE_NAME, [])] := by
  have h := activate_idempotent [(CACHE_NAME, [])]
  exact ⟨h.1, h.2 (by decide)⟩

/-- C4: after a successful install, the current-generation store answers a
lookup for each of the four app-shell keys with a stored response. -/
theorem install_populates_app_shell (netG : String → Option Response) (so : String)
    (cs : CacheStorage) (h : (installSW netG so cs).1 = true) :
    ∀ u ∈ APP_SHELL, ∃ st r,
      getStore (installSW netG so cs).2 CACHE_NAME = some st ∧
      lookupStore st (shellRequest so u) = some r := by
  cases e1 : netG "/" with
  | none => rw [installSW] at h; simp [APP_SHELL, addAllFetch, e1] at h
  | some r1 =>
  cases e2 : netG "/manifest.webmanifest" with
  | none => rw [installSW] at h; simp [APP_SHELL, addAllFetch, e1, e2] at h
  | some r2 =>
  cases e3 : netG "/static/icons/icon-192.png" with
  | none => rw [installSW] at h; simp [APP_SHELL, addAllFetch, e1, e2, e3] at h
  | some r3 =>
  cases e4 : netG "/static/icons/icon-512.png" with
  | none => rw [installSW] at h; simp [APP_SHELL, addAllFetch, e1, e2, e3, e4] at h
  | some r4 =>
  have hout : (installSW netG so cs).2 =
      cachePutIn (cachePutIn (cachePutIn (cachePutIn (cachesOpen cs CACHE_NAME)
        CACHE_NAME (shellRequest so "/") r1)
        CACHE_NAME (shellRequest so "/manifest.webmanifest") r2)
        CACHE_NAME (shellRequest so "/static/icons/icon-192.png") r3)
        CACHE_NAME (shellRequest so "/static/icons/icon-512.png") r4 := by
    rw [installSW]
    simp [APP_SHELL, addAllFetch, e1, e2, e3, e4]
  obtain ⟨st0, hst0⟩ := getStore_cachesOpen cs CACHE_NAME
  have g1 := getStore_cachePutIn _ CACHE_NAME _ (shellRequest so "/") r1 hst0
  have g2 := getStore_cachePutIn _ CACHE_NAME _
    (shellRequest so "/manifest.webmanifest") r2 g1
  have g3 := getStore_cachePutIn _ CACHE_NAME _
    (shellRequest so "/static/icons/icon-192.png") r3 g2
  have g4 := getStore_cachePutIn _ CACHE_NAME _
    (shellRequest so "/static/icons/icon-512.png") r4 g3
  rw [hout]
  intro u hu
  have hne : ∀ a b : String, a.data ≠ b.data →
      shellRequest so a ≠ shellRequest so b := by
    intro a b hab hcon
    apply hab
    have := congrArg Request.pathname hcon
    simp [shellRequest] at this
    rw [this]
  simp only [APP_SHELL, List.mem_cons, List.not_mem_nil, or_false] at hu
  rcases hu with hu | hu | hu | hu
  · subst hu
    refine ⟨_, r1, g4, ?_⟩
    rw [lookupStore_putStore_ne _ _ _ _ (hne _ _ (by decide)),
      lookupStore_putStore_ne _ _ _ _ (hne _ _ (by decide)),
      lookupStore_putStore_ne _ _ _ _ (hne _ _ (by decide)),
      lookupStore_putStore_self]
  · subst hu
    refine ⟨_, r2, g4, ?_⟩
    rw [lookupStore_putStore_ne _ _ _ _ (hne _ _ (by decide)),
      lookupStore_putStore_ne _ _ _ _ (hne _ _ (by decide)),
      lookupStore_putStore_self]
  · subst hu
    refine ⟨_, r3, g4, ?_⟩
    rw [lookupStore_putStore_ne _ _ _ _ (hne _ _ (by decide)),
      lookupStore_putStore_self]
  · subst hu
    exact ⟨_, r4, g4, lookupStore_putStore_self _ _ _⟩

theorem install_populates_app_shell_witness :
    (installSW (fun _ => some ⟨9, 200⟩) "https://o" []).1 = true ∧
    (∃ st r, getStore (installSW (fun _ => some ⟨9, 200⟩) "https://o" []).2 CACHE_NAME =
      some st ∧ lookupStore st (shellRequest "https://o" "/") = some r) := by
  refine ⟨by decide, ?_⟩
  exact install_populates_app_shell (fun _ => some ⟨9, 200⟩) "https://o" []
    (by decide) "/" (by decide)

/-- C5: the install is all-or-nothing: if fetching any app-shell URL fails,
the install attempt reports failure to the host runtime and commits no
partial set of shell entries — the storage is exactly the pre-existing one
with the current-generation store merely ensured to exist. -/
theorem install_all_or_nothing (netG : String → Option Response) (so : String)
    (cs : CacheStorage) (u : String)
    (hu : u ∈ APP_SHELL) (hf : netG u = none) :
    installSW netG so cs = (false, cachesOpen cs CACHE_NAME) := by
  have hnone := addAllFetch_none netG u APP_SHELL hu hf
  rw [installSW, hnone]

theorem install_all_or_nothing_witness :
    "/manifest.webmanifest" ∈ APP_SHELL ∧
    installSW (fun v => if v == "/manifest.webmanifest" then none else some ⟨1, 200⟩)
      "https://o" [] = (false, [(CACHE_NAME, [])]) := by
  have h := install_all_or_nothing
    (fun v => if v == "/manifest.webmanifest" then none else some ⟨1, 200⟩)
    "https://o" [] "/manifest.webmanifest" (by decide) (by decide)
  exact ⟨by decide, h⟩

/-- C6, counterexample: the fetch handler looks requests up with the
storage-wide caches.match, not in the current-generation store only. Here
the current generation has no store at all, only a stale generation
"freqshift-pwa-v0" holds the key, the network would answer payload 2 — yet
the handler serves the stale stored payload 1 and performs no network
fetch, refuting the claim that a cached response can only come from the
store named by the current generation identifier. -/
theorem fetch_lookup_not_current_only_cex :
    getStore [("freqshift-pwa-v0", [(⟨"GET", "https://o", "/app.css"⟩, ⟨1, 200⟩)])]
      CACHE_NAME = none ∧
    handleFetch (fun _ => some ⟨2, 200⟩) true "https://o"
      ⟨[("freqshift-pwa-v0", [(⟨"GET", "https://o", "/app.css"⟩, ⟨1, 200⟩)])], 0⟩
      ⟨"GET", "https://o", "/app.css"⟩ =
      (some ⟨1, 200⟩,
        ⟨[("freqshift-pwa-v0", [(⟨"GET", "https://o", "/app.css"⟩, ⟨1, 200⟩)])], 0⟩) := by
  exact ⟨by decide, by decide⟩

/-- C6, amended: the cache lookup is by exact request key across all
existing stores; hence whenever every retained generation is the current
one (as holds after activation completes), a cache hit is served unchanged
and its response comes from a store named by the current generation
identifier. -/
theorem fetch_lookup_current_after_activation (net : Nat → Option Response)
    (putOk : Bool) (so : String) (s : SWState) (req : Request) (v : Response)
    (hres : isDynamicPath req.pathname = false)
    (hk : ∀ p ∈ s.cacheStorage, p.1 = CACHE_NAME)
    (hc : cachesMatch s.cacheStorage req = some v) :
    handleFetch net putOk so s req = (some v, s) ∧
    ∃ st, (CACHE_NAME, st) ∈ s.cacheStorage ∧ lookupStore st req = some v := by
  constructor
  · simp [handleFetch, hres, hc]
  · obtain ⟨n, st, hmem, hlk⟩ := cachesMatch_exists_mem s.cacheStorage req v hc
    exact ⟨st, by rw [← hk (n, st) hmem]; exact hmem, hlk⟩

theorem fetch_lookup_current_after_activation_witness :
    cachesMatch [(CACHE_NAME, [(⟨"GET", "https://o", "/"⟩, ⟨5, 200⟩)])]
      ⟨"GET", "https://o", "/"⟩ = some ⟨5, 200⟩ ∧
    handleFetch (fun _ => some ⟨6, 200⟩) true "https://o"
      ⟨[(CACHE_NAME, [(⟨"GET", "https://o", "/"⟩, ⟨5, 200⟩)])], 0⟩
      ⟨"GET", "https://o", "/"⟩ =
      (some ⟨5, 200⟩, ⟨[(CACHE_NAME, [(⟨"GET", "https://o", "/"⟩, ⟨5, 200⟩)])], 0⟩) ∧
    (∃ st, (CACHE_NAME, st) ∈
        ([(CACHE_NAME, [(⟨"GET", "https://o", "/"⟩, ⟨5, 200⟩)])] : CacheStorage) ∧
      lookupStore st ⟨"GET", "https://o", "/"⟩ = some ⟨5, 200⟩) := by
  have h := fetch_lookup_current_after_activation (fun _ => some ⟨6, 200⟩) true
    "https://o" ⟨[(CACHE_NAME, [(⟨"GET", "https://o", "/"⟩, ⟨5, 200⟩)])], 0⟩
    ⟨"GET", "https://o", "/"⟩ ⟨5, 200⟩ (by decide) (by decide) (by decide)
  exact ⟨by decide, h.1, h.2⟩

end FreqshiftSW
